import Mathlib

/-!
Verification development for the gotsr library ("Terminate and Stay
Resident" daemonisation for Go programs).

The repository carries two platform variants of the same design:
a signal-based (POSIX) variant and a socket-based variant.  Both are
embedded here.  File contents are modelled as `List Char` (the sources
only ever deal in ASCII data: decimal PIDs and `host:port` strings);
a file system entry is `Option (List Char)` where `none` means the file
does not exist.  Go `int` is modelled as `Int` (the decimal text written
by `writePID` and re-parsed by `readPID` never overflows the model).
-/

/-! ## Scanner model (Go fmt.Fscanf / fmt.Fscanln as used by readPID)

`readPID` first calls `fmt.Fscanf(f, "%d", &pid)` and then, for each
additional data pointer, `fmt.Fscanln(f, data[i])`.  In both calls the
scanner runs with `nlIsSpace = false`: skipping blanks stops with an
"unexpected newline" error at a `'\n'`.  Because `*os.File` is not an
`io.RuneScanner`, the one rune a scan call reads past its item and
"unreads" is held in the scanner state and is lost when the call
returns; the model drops that rune explicitly.  Digits for `%d` are the
ASCII characters 0-9 and an optional leading sign is accepted.  The
model is byte-faithful for ASCII input.
-/

/-- Scan errors of the modelled `readPID`, plus the open error for a
missing file.  `notExist` is the error class satisfying Go's
`os.IsNotExist`; every other constructor is a scan (malformed-record)
error. -/
inductive RErr where
  | notExist
  | newlineErr
  | eofErr
  | intErr
  | nlExpected
deriving DecidableEq

/-- ASCII blank characters skipped by the scanner (space class minus
newline, restricted to ASCII). -/
def isBlank (c : Char) : Bool :=
  c == ' ' || c == '\t' || c == '\r' || c == '\x0b' || c == '\x0c'

/-- A character that the string verb of `Fscanln` accepts into a token:
anything that is not a blank and not a newline. -/
def tokChar (c : Char) : Bool :=
  !(isBlank c) && !(c == '\n')

/-- The decimal digits accepted by the `%d` verb: ASCII 0-9. -/
def isDigitCh (c : Char) : Bool :=
  48 ≤ c.toNat && c.toNat ≤ 57

/-- `ss.SkipSpace` with `nlIsSpace = false`: consume blanks; a newline
is an "unexpected newline" error; the first non-blank stays in the
input (it is unread into the scanner's buffer and re-read next). -/
def skipBlanks : List Char → Except RErr (List Char)
  | [] => .ok []
  | c :: cs =>
    if isBlank c then skipBlanks cs
    else if c == '\n' then .error .newlineErr
    else .ok (c :: cs)

/-- Numeric value of a digit character. -/
def digVal (c : Char) : Nat := c.toNat - 48

/-- `fmt.Fscanf(f, "%d", &pid)`: skip blanks (newline is an error, end
of input is an EOF error), accept one optional sign, then one or more
decimal digits.  The rune that terminates the digit run was unread into
the scanner state, which is discarded when `Fscanf` returns, so that
rune is consumed from the file: the returned remainder drops it. -/
def scanfInt (cs : List Char) : Except RErr (Int × List Char) :=
  match skipBlanks cs with
  | .error e => .error e
  | .ok [] => .error .eofErr
  | .ok (c :: rest) =>
    let neg := c == '-'
    let body := if c == '-' || c == '+' then rest else c :: rest
    let ds := body.takeWhile isDigitCh
    let rest2 := body.dropWhile isDigitCh
    if ds = [] then .error .intErr
    else
      let n : Nat := ds.foldl (fun a ch => a * 10 + digVal ch) 0
      .ok ((if neg then -(n : Int) else (n : Int)), rest2.drop 1)

/-- End-of-line check of `Fscanln` (`nlIsEnd`): after the item, blanks
may follow, then a newline (consumed) or end of input; anything else is
an "expected newline" error. -/
def nlEnd : List Char → Except RErr (List Char)
  | [] => .ok []
  | c :: cs =>
    if c == '\n' then .ok cs
    else if isBlank c then nlEnd cs
    else .error .nlExpected

/-- `fmt.Fscanln(f, data[i])` with one `*string` argument: skip blanks
(a leading newline is an "unexpected newline" error), fail with EOF on
end of input, read the maximal run of non-space characters, then check
for end of line. -/
def scanlnStr (cs : List Char) : Except RErr (String × List Char) :=
  match skipBlanks cs with
  | .error e => .error e
  | .ok [] => .error .eofErr
  | .ok (c :: rest) =>
    let tok := (c :: rest).takeWhile tokChar
    let rest2 := (c :: rest).dropWhile tokChar
    match nlEnd rest2 with
    | .error e => .error e
    | .ok rem => .ok (tok.asString, rem)

/-- The loop `for i := range data { fmt.Fscanln(f, data[i]) }` of
`readPID`, reading `n` additional lines. -/
def scanlnLoop : Nat → List Char → Except RErr (List String × List Char)
  | 0, cs => .ok ([], cs)
  | n + 1, cs =>
    match scanlnStr cs with
    | .error e => .error e
    | .ok (s, cs1) =>
      match scanlnLoop n cs1 with
      | .error e => .error e
      | .ok (ss, cs2) => .ok (s :: ss, cs2)

/-- `readPID(filename string, data ...*string)` (socket-variant file,
variadic form): open the file (`notExist` when absent), scan the PID
with `%d`, then scan `n` additional whitespace-delimited lines.  On any
error no PID is recovered (Go returns `-1` or `0` together with the
non-nil error; the model returns the error). -/
def readPID (file : Option (List Char)) (n : Nat) : Except RErr (Int × List String) :=
  match file with
  | none => .error .notExist
  | some cs =>
    match scanfInt cs with
    | .error e => .error e
    | .ok (pid, cs1) =>
      match scanlnLoop n cs1 with
      | .error e => .error e
      | .ok (ss, _) => .ok (pid, ss)

/-- `readPID(filename string)` of the signal-variant file: identical
but with no additional data pointers. -/
def readPID0 (file : Option (List Char)) : Except RErr Int :=
  match readPID file 0 with
  | .error e => .error e
  | .ok (pid, _) => .ok pid

/-- Go's `os.IsNotExist` on the modelled errors. -/
def isNotExistErr (e : RErr) : Bool := e == RErr.notExist

/-! ## Decimal printing (Go `fmt.Fprintf("%d")` / `strconv.Itoa`) -/

/-- The character of a decimal digit. -/
def digitChar (d : Nat) : Char := Char.ofNat (48 + d)

/-- Decimal digits of a natural number, most significant first, with a
fuel argument for structural recursion (fuel `n + 1` always suffices). -/
def natDecCore : Nat → Nat → List Char → List Char
  | 0, _, acc => acc
  | fuel + 1, n, acc =>
    if n < 10 then digitChar n :: acc
    else natDecCore fuel (n / 10) (digitChar (n % 10) :: acc)

/-- Decimal representation of a natural number. -/
def natDec (n : Nat) : List Char := natDecCore (n + 1) n []

/-- Decimal representation of a Go `int` as printed by `%d` and
`strconv.Itoa`. -/
def intDec (i : Int) : List Char :=
  if i < 0 then '-' :: natDec i.natAbs else natDec i.toNat

/-- `writePID(filename string, PID int, data ...string)`: the file
contents written — `fmt.Fprintf(f, "%d\n", PID)` followed by
`fmt.Fprintln(f, s)` for each data string.  The signal-variant
`writePID` writes `strconv.Itoa(PID) + "\n"`, the same bytes as
`writePID pid []`. -/
def writePID (pid : Int) (data : List String) : List Char :=
  intDec pid ++ '\n' :: data.foldr (fun s acc => s.data ++ '\n' :: acc) []

/-! ## Identity Namespace: `hash` (crypto/sha256.Sum224, upper-case hex)
and `newEnvVar` (first 7 characters of the hex digest).

SHA-224 is embedded in full over `Nat` with explicit reduction modulo
`2 ^ 32`; the digest is the truncation of the SHA-256 state (with the
SHA-224 initial value) to its first seven 32-bit words. -/

/-- `2 ^ 32`, the modulus of the 32-bit words. -/
def m32 : Nat := 4294967296

/-- 32-bit right rotation. -/
def rotr (n x : Nat) : Nat := ((x >>> n) ||| (x <<< (32 - n))) % m32

/-- UTF-8 bytes of a character (Go's `[]byte(s)` conversion applied per
rune). -/
def utf8Bytes (c : Char) : List Nat :=
  let v := c.toNat
  if v < 128 then [v]
  else if v < 2048 then [192 + v / 64, 128 + v % 64]
  else if v < 65536 then [224 + v / 4096, 128 + v / 64 % 64, 128 + v % 64]
  else [240 + v / 262144, 128 + v / 4096 % 64, 128 + v / 64 % 64, 128 + v % 64]

/-- UTF-8 bytes of a string. -/
def strBytes (s : String) : List Nat := (s.data.map utf8Bytes).flatten

/-- The SHA-256 round constants (decimal). -/
def K224 : List Nat :=
  [1116352408, 1899447441, 3049323471, 3921009573,
   961987163, 1508970993, 2453635748, 2870763221,
   3624381080, 310598401, 607225278, 1426881987,
   1925078388, 2162078206, 2614888103, 3248222580,
   3835390401, 4022224774, 264347078, 604807628,
   770255983, 1249150122, 1555081692, 1996064986,
   2554220882, 2821834349, 2952996808, 3210313671,
   3336571891, 3584528711, 113926993, 338241895,
   666307205, 773529912, 1294757372, 1396182291,
   1695183700, 1986661051, 2177026350, 2456956037,
   2730485921, 2820302411, 3259730800, 3345764771,
   3516065817, 3600352804, 4094571909, 275423344,
   430227734, 506948616, 659060556, 883997877,
   958139571, 1322822218, 1537002063, 1747873779,
   1955562222, 2024104815, 2227730452, 2361852424,
   2428436474, 2756734187, 3204031479, 3329325298]

/-- Hash state: eight 32-bit working words. -/
structure HS where
  a : Nat
  b : Nat
  c : Nat
  d : Nat
  e : Nat
  f : Nat
  g : Nat
  hv : Nat

/-- The SHA-224 initial hash value. -/
def iv224 : HS :=
  ⟨3238371032, 914150663, 812702999, 4144912697, 4290775857, 1750603025, 1694076839, 3204075428⟩

/-- Group a 64-byte block into 16 big-endian 32-bit words. -/
def words16 : List Nat → List Nat
  | b0 :: b1 :: b2 :: b3 :: rest => (((b0 * 256 + b1) * 256 + b2) * 256 + b3) :: words16 rest
  | _ => []

/-- Extend 16 words to the 64-word message schedule. -/
def extendW (w16 : List Nat) : List Nat :=
  (List.range 48).foldl
    (fun w _ =>
      let n := w.length
      let s0 :=
        let x := w.getD (n - 15) 0
        (rotr 7 x) ^^^ (rotr 18 x) ^^^ (x >>> 3)
      let s1 :=
        let x := w.getD (n - 2) 0
        (rotr 17 x) ^^^ (rotr 19 x) ^^^ (x >>> 10)
      w ++ [(w.getD (n - 16) 0 + s0 + w.getD (n - 7) 0 + s1) % m32])
    w16

/-- One compression round. -/
def roundStep (s : HS) (kw : Nat × Nat) : HS :=
  let bigS1 := (rotr 6 s.e) ^^^ (rotr 11 s.e) ^^^ (rotr 25 s.e)
  let ch := (s.e &&& s.f) ^^^ ((s.e ^^^ (m32 - 1)) &&& s.g)
  let t1 := (s.hv + bigS1 + ch + kw.1 + kw.2) % m32
  let bigS0 := (rotr 2 s.a) ^^^ (rotr 13 s.a) ^^^ (rotr 22 s.a)
  let maj := (s.a &&& s.b) ^^^ (s.a &&& s.c) ^^^ (s.b &&& s.c)
  let t2 := (bigS0 + maj) % m32
  ⟨(t1 + t2) % m32, s.a, s.b, s.c, (s.d + t1) % m32, s.e, s.f, s.g⟩

/-- Compress one 64-byte block into the state. -/
def compressBlock (st : HS) (block : List Nat) : HS :=
  let w := extendW (words16 block)
  let t := (K224.zip w).foldl roundStep st
  ⟨(st.a + t.a) % m32, (st.b + t.b) % m32, (st.c + t.c) % m32, (st.d + t.d) % m32,
   (st.e + t.e) % m32, (st.f + t.f) % m32, (st.g + t.g) % m32, (st.hv + t.hv) % m32⟩

/-- Process all 64-byte blocks (fuel bounds the number of steps; the
padded message length is always enough fuel). -/
def processBlocks : Nat → HS → List Nat → HS
  | _, st, [] => st
  | 0, st, _ => st
  | fuel + 1, st, l => processBlocks fuel (compressBlock st (l.take 64)) (l.drop 64)

/-- Number of zero bytes in the SHA padding. -/
def padZeros (len : Nat) : Nat := (119 - len % 64) % 64

/-- 64-bit big-endian encoding of the bit length. -/
def be64 (n : Nat) : List Nat :=
  [n >>> 56 % 256, n >>> 48 % 256, n >>> 40 % 256, n >>> 32 % 256,
   n >>> 24 % 256, n >>> 16 % 256, n >>> 8 % 256, n % 256]

/-- SHA padding: `0x80`, zeros to 56 mod 64, 8-byte big-endian bit
length. -/
def shaPad (msg : List Nat) : List Nat :=
  msg ++ 128 :: List.replicate (padZeros msg.length) 0 ++ be64 (8 * msg.length)

/-- Big-endian bytes of a 32-bit word. -/
def be32 (w : Nat) : List Nat :=
  [w >>> 24 % 256, w >>> 16 % 256, w >>> 8 % 256, w % 256]

/-- The 28-byte SHA-224 digest: the first seven state words. -/
def digestBytes (st : HS) : List Nat :=
  ([st.a, st.b, st.c, st.d, st.e, st.f, st.g].map be32).flatten

/-- `sha256.Sum224` on a byte sequence. -/
def sha224 (msg : List Nat) : List Nat :=
  let p := shaPad msg
  digestBytes (processBlocks p.length iv224 p)

/-- Upper-case hexadecimal digit (Go encodes lower-case hex and then
applies `strings.ToUpper`; the composition is this table). -/
def hexDigitU (n : Nat) : Char := "0123456789ABCDEF".data.getD n '0'

/-- Upper-case hex encoding of a byte sequence. -/
def hexEncode (bs : List Nat) : List Char :=
  (bs.map (fun b => [hexDigitU (b / 16), hexDigitU (b % 16)])).flatten

/-- `hash(s string) string`: upper-case hex of `sha256.Sum224([]byte(s))`. -/
def hashHex (s : String) : String := (hexEncode (sha224 (strBytes s))).asString

/-- `newEnvVar(s string) envVar`: the first 7 characters of `hashHex s`.
This is the Identity Namespace token. -/
def newEnvVar (s : String) : String := ((hashHex s).data.take 7).asString

/-- `envVar.stage()`: name of the environment variable holding the stage. -/
def envVarStage (id : String) : String := "TSR_" ++ id ++ "__STG"

/-- `envVar.pid()`: name of the environment variable holding the PID. -/
def envVarPid (id : String) : String := "TSR_" ++ id ++ "__PID"

/-- `envVar.addr()`: name of the environment variable holding the
rendezvous address (socket variant only). -/
def envVarAddr (id : String) : String := "TSR_" ++ id ++ "__ADDR"

/-! ## Stage State Machine and `summon` dispatch -/

/-- The initialisation stage of the program (`stage int8` with the
stringer line comments). -/
inductive stage where
  | sUnknown
  | sInitialise
  | sDetach
  | sRunning
deriving DecidableEq

/-- `stage.String()` as generated by stringer from the line comments. -/
def stageString : stage → String
  | .sUnknown => "UNKNOWN"
  | .sInitialise => "INIT"
  | .sDetach => "DETACH"
  | .sRunning => "RUN"

/-- The stage handlers `summon` can dispatch to. -/
inductive Handler where
  | hInit
  | hDetach
  | hRun
deriving DecidableEq

/-- Errors of the modelled facade operations. -/
inductive GErr where
  | invalidStage
  | notRunning
  | noPID
  | missingAddr
  | dialErr
  | writeErr
  | connReadErr
  | invalidResponse
  | readErr (e : RErr)
deriving DecidableEq

/-- The `summon` dispatch of the signal-based (POSIX) variant, given
the value of the stage environment variable (`os.Getenv` returns `""`
when unset; `os.Executable()` is taken to succeed, its failure path is
orthogonal to the dispatch).  The result records the stage returned,
which stage handler ran (`none` when none ran), and the dispatch-level
error (the handler's own outcome is abstracted). -/
def summonP (stgVal : String) : stage × Option Handler × Option GErr :=
  if stgVal = "" then (.sInitialise, some .hInit, none)
  else if stgVal = stageString .sDetach then (.sDetach, some .hDetach, none)
  else if stgVal = stageString .sRunning then (.sRunning, some .hRun, none)
  else (.sUnknown, none, some .invalidStage)

/-- The `summon` dispatch of the socket-based variant: identical except
that the `Detach` case is absent (commented out in the source), so the
Detach stage name is not recognised. -/
def summonS (stgVal : String) : stage × Option Handler × Option GErr :=
  if stgVal = "" then (.sInitialise, some .hInit, none)
  else if stgVal = stageString .sRunning then (.sRunning, some .hRun, none)
  else (.sUnknown, none, some .invalidStage)

/-! ## Rendezvous exchange and shutdown trace (socket variant)

`stageRun` arms a connection listener; each accepted connection reads a
2-byte request, answers `"ok"` to both `"ok"` (liveness ping) and
`"ex"` (exit request), and for `"ex"` closes the `quit` channel, which
makes the shutdown goroutine run the exit hooks in order, close the
listener, remove the PID file and exit the process.  The model records
the handler's reply and the ordered sequence of events the request
triggers; exit hooks are identified by naturals. -/

/-- Events of the running instance triggered by a rendezvous request. -/
inductive REvent where
  | ack
  | hook (i : Nat)
  | lnClose
  | pidRemove
  | procExit
deriving DecidableEq

/-- The shutdown path of the `quit` goroutine in `stageRun`: run the
exit hooks in slice order, close the listener, remove the PID file,
exit. -/
def shutdownSeq (hooks : List Nat) : List REvent :=
  hooks.map REvent.hook ++ [REvent.lnClose, REvent.pidRemove, REvent.procExit]

/-- The connection handler of `stageRun` on one request: the reply sent
back (if any) and the events that follow.  For `"ex"` the `"ok"` reply
is written before `close(quit)`, so the acknowledgement precedes every
shutdown event. -/
def handleConn (req : String) (hooks : List Nat) : Option String × List REvent :=
  if req = "ok" then (some "ok", [])
  else if req = "ex" then (some "ok", REvent.ack :: shutdownSeq hooks)
  else (none, [])

/-- Extract the hook id from an event. -/
def hookOf : REvent → Option Nat
  | .hook i => some i
  | _ => none

/-! ## Process Facade -/

/-- Outcome of the network exchange a caller performs against the
address recorded in the PID file: whether `net.Dial` succeeds, whether
the request write succeeds, and the reply the 2-byte read yields
(`none` models a read error). -/
structure NetEnv where
  dialOk : Bool
  writeOk : Bool
  readResp : Option String

/-- `isRunning(pidFile string)` of the socket variant: read the PID
record with one address pointer, treat an absent file as `(false, nil)`,
dial the recorded address, send `"ok"` and require the `"ok"` reply.
Returns the `(bool, error)` pair. -/
def isRunningS (file : Option (List Char)) (net : NetEnv) : Bool × Option GErr :=
  match readPID file 1 with
  | .error .notExist => (false, none)
  | .error e => (false, some (.readErr e))
  | .ok (pid, datas) =>
    if pid = 0 then (false, some .noPID)
    else
      let pAddr := datas.headD ""
      if pAddr = "" then (false, some .missingAddr)
      else if !net.dialOk then (false, none)
      else if !net.writeOk then (false, none)
      else
        match net.readResp with
        | none => (false, some .connReadErr)
        | some r => if r ≠ "ok" then (false, some .invalidResponse) else (true, none)

/-- `terminate(pidFile string)` of the socket variant: read the PID
record with one address pointer (`ErrNotRunning` when the file is
absent), dial the recorded address, send `"ex"` and require the `"ok"`
acknowledgement.  `none` is a nil error (success). -/
def terminateS (file : Option (List Char)) (net : NetEnv) : Option GErr :=
  match readPID file 1 with
  | .error .notExist => some .notRunning
  | .error e => some (.readErr e)
  | .ok (_, datas) =>
    let pAddr := datas.headD ""
    if pAddr = "" then some .missingAddr
    else if !net.dialOk then some .dialErr
    else if !net.writeOk then some .writeErr
    else
      match net.readResp with
      | none => some .connReadErr
      | some r => if r ≠ "ok" then some .invalidResponse else none

/-- `Process.IsRunning()` of the signal variant: read the bare PID
(absent file is `(false, nil)`, a record with PID 0 is `ErrNoPID`) and
probe the process with a signal; `alive` is the probe's outcome. -/
def IsRunningP (file : Option (List Char)) (alive : Bool) : Bool × Option GErr :=
  match readPID0 file with
  | .error .notExist => (false, none)
  | .error e => (false, some (.readErr e))
  | .ok pid => if pid = 0 then (false, some .noPID) else (alive, none)

/-- `Process.Terminate()` of the signal variant: read the bare PID
(absent file is `ErrNotRunning`, PID 0 is `ErrNoPID`, both returned
before the deferred `p.Close()` is registered), then
`defer p.Close()` — which removes the PID file — and deliver SIGTERM;
`sigErr` is the outcome of `terminate(pid)`.  The result is the file
state after the call together with the returned error. -/
def TerminateP (file : Option (List Char)) (sigErr : Option GErr) :
    Option (List Char) × Option GErr :=
  match readPID0 file with
  | .error .notExist => (file, some .notRunning)
  | .error e => (file, some (.readErr e))
  | .ok pid =>
    if pid = 0 then (file, some .noPID)
    else (none, sigErr)

/-- The `Process` value built by the facade: PID file path, start
timeout in nanoseconds (Go `time.Duration`), and the registered exit
hooks in registration order. -/
structure ProcModel where
  pidFile : String
  startTimeout : Nat
  atExit : List Nat

/-- `Process.AtExit(fn)`: append a hook. -/
def ProcAtExit (p : ProcModel) (hk : Nat) : ProcModel :=
  { p with atExit := p.atExit ++ [hk] }

/-- A `ProcModel` before any registration (used as the base of the
hook-registration fold). -/
def emptyProc : ProcModel := { pidFile := "", startTimeout := 0, atExit := [] }

/-- `WithPIDFile(fullpath)` option. -/
def WithPIDFile (fullpath : String) : ProcModel → ProcModel :=
  fun p => { p with pidFile := fullpath }

/-- One nanosecond-denominated second (`time.Second`). -/
def durSecond : Nat := 1000000000

/-- `startTimeout = 60 * time.Second`: the constant of the
socket-revision `tsr.go`. -/
def startTimeoutSock : Nat := 60 * durSecond

/-- `startTimeout = 2 * time.Second`: the constant of the signal-based
(POSIX) platform file. -/
def startTimeoutSig : Nat := 2 * durSecond

/-- `filepath.Base` for slash-separated paths. -/
def goBase (p : String) : String :=
  if p = "" then "."
  else
    let cs := (p.data.reverse.dropWhile (fun c => c == '/')).reverse
    if cs = [] then "/"
    else
      let last := (cs.reverse.takeWhile (fun c => !(c == '/'))).reverse
      if last = [] then "/" else last.asString

/-- Scan the reversed path for the extension: stop at a path separator,
return the suffix from the last dot of the final element. -/
def goExtCore : List Char → List Char → List Char
  | [], _ => []
  | c :: rest, acc =>
    if c == '/' then []
    else if c == '.' then c :: acc
    else goExtCore rest (c :: acc)

/-- `filepath.Ext`: the suffix beginning at the final dot in the final
element of the path; empty if there is no dot. -/
def goExt (p : String) : String := (goExtCore p.data.reverse []).asString

/-- `pidFromExe(executable string)`: the executable's base name with
its extension replaced by `.pid`. -/
def pidFromExe (executable : String) : String :=
  let base := goBase executable
  let ext := goExt executable
  ((base.data.take (base.data.length - ext.data.length)).asString) ++ ".pid"

/-- `New(opts...)` of the socket revision: start from
`Process{startTimeout: startTimeout}` with the 60-second constant,
apply the options, and default the PID file from the executable name
(`os.Executable()` is taken to succeed and yield `exe`). -/
def NewSock (exe : String) (opts : List (ProcModel → ProcModel)) : ProcModel :=
  let p := opts.foldl (fun p o => o p) { pidFile := "", startTimeout := startTimeoutSock, atExit := [] }
  if p.pidFile = "" then { p with pidFile := pidFromExe exe } else p

/-- `New(opts...)` as compiled with the signal-based (POSIX) platform
file, whose `startTimeout` constant is 2 seconds. -/
def NewSig (exe : String) (opts : List (ProcModel → ProcModel)) : ProcModel :=
  let p := opts.foldl (fun p o => o p) { pidFile := "", startTimeout := startTimeoutSig, atExit := [] }
  if p.pidFile = "" then { p with pidFile := pidFromExe exe } else p

/-! ## Spec-side predicates (for stating claims, not taken from the
source) -/

/-- Whether the scan of `%d` would find an integer at the head of the
content: after optional blanks and an optional sign there is a decimal
digit.  (Used to state the amended malformed-record claim.) -/
def startsWithInt (cs : List Char) : Bool :=
  match skipBlanks cs with
  | .error _ => false
  | .ok [] => false
  | .ok (c :: rest) =>
    match (if c == '-' || c == '+' then rest else c :: rest) with
    | [] => false
    | d :: _ => isDigitCh d

/-- Modelled from the spec's words: the first line of the file, taken
as a whole, "is a base-10 integer" — an optional sign followed by one
or more decimal digits and nothing else. -/
def specFirstLineIsBase10Int (cs : List Char) : Bool :=
  let line := cs.takeWhile (fun c => !(c == '\n'))
  let body :=
    match line with
    | c :: rest => if c == '-' || c == '+' then rest else line
    | [] => line
  !body.isEmpty && body.all isDigitCh

/-! ### Sanity checks mirroring the repository's own `Test_readPID` -/

theorem readPID_test_number : readPID (some ("12345".data)) 0 = .ok (12345, []) := rfl

theorem readPID_test_newline : readPID (some ("12345\n".data)) 0 = .ok (12345, []) := rfl

theorem readPID_test_empty : readPID (some ("".data)) 0 = .error .eofErr := rfl

theorem readPID_test_not_number : readPID (some ("test".data)) 0 = .error .intErr := rfl

theorem readPID_test_additional : readPID (some ("12345\ntest".data)) 1 = .ok (12345, ["test"]) := rfl

/-! ### Sanity checks mirroring `Test_hash` and `Test_pidFromExe` -/

theorem hashHex_test_filename :
    hashHex "test.pid" = "EF61F1A18EA6B65A6B571B3AFE264595AF9032DAE597550C22EEFE09" := by
  decide

theorem hashHex_test_another_filename :
    hashHex "test.pi" = "289FFB825DEB0AC11B934A86E70BFD02FBBB094C74C6F13522D1997A" := by
  decide

theorem pidFromExe_test_nix_no_path : pidFromExe "./test" = "test.pid" := by decide

theorem pidFromExe_test_win_no_path : pidFromExe "test.exe" = "test.pid" := by decide

theorem pidFromExe_test_nix_with_path : pidFromExe "/usr/local/bin/proggy" = "proggy.pid" := by decide

/-! ## Helper lemmas: decimal printing parses back -/

theorem digitChar_toNat {d : Nat} (h : d < 10) : (digitChar d).toNat = 48 + d := by
  interval_cases d <;> decide

theorem isDigitCh_digitChar {d : Nat} (h : d < 10) : isDigitCh (digitChar d) = true := by
  interval_cases d <;> decide

theorem natDecCore_fuel_append {n : Nat} :
    ∀ {fuel : Nat} (acc : List Char), n < fuel →
      natDecCore fuel n acc = natDecCore (n + 1) n [] ++ acc := by
  induction n using Nat.strong_induction_on with
  | _ n ih =>
    intro fuel acc hfuel
    match fuel, hfuel with
    | f + 1, hf =>
      by_cases h10 : n < 10
      · simp [natDecCore, h10]
      · have hlt : n / 10 < n := Nat.div_lt_self (by omega) (by omega)
        have h1 : natDecCore (f + 1) n acc
            = natDecCore f (n / 10) (digitChar (n % 10) :: acc) := by
          simp [natDecCore, h10]
        have h2 : natDecCore (n + 1) n []
            = natDecCore n (n / 10) [digitChar (n % 10)] := by
          simp [natDecCore, h10]
        have e1 : natDecCore f (n / 10) (digitChar (n % 10) :: acc)
            = natDecCore (n / 10 + 1) (n / 10) [] ++ (digitChar (n % 10) :: acc) :=
          ih _ hlt _ (by omega)
        have e2 : natDecCore n (n / 10) [digitChar (n % 10)]
            = natDecCore (n / 10 + 1) (n / 10) [] ++ [digitChar (n % 10)] :=
          ih _ hlt _ (by omega)
        rw [h1, h2, e1, e2]
        simp

theorem natDec_ge_ten {n : Nat} (h : ¬ n < 10) :
    natDec n = natDec (n / 10) ++ [digitChar (n % 10)] := by
  have hlt : n / 10 < n := Nat.div_lt_self (by omega) (by omega)
  show natDecCore (n + 1) n [] = _
  match n, h with
  | m + 1, h =>
    have : natDecCore (m + 1 + 1) (m + 1) [] =
        natDecCore (m + 1) ((m + 1) / 10) (digitChar ((m + 1) % 10) :: []) := by
      simp [natDecCore, h]
    rw [this, natDecCore_fuel_append _ (by omega)]
    rfl

theorem natDec_lt_ten {n : Nat} (h : n < 10) : natDec n = [digitChar n] := by
  simp [natDec, natDecCore, h]

theorem natDec_digits {n : Nat} : ∀ c ∈ natDec n, isDigitCh c = true := by
  induction n using Nat.strong_induction_on with
  | _ n ih =>
    by_cases h10 : n < 10
    · rw [natDec_lt_ten h10]
      intro c hc
      rw [List.mem_singleton] at hc
      subst hc
      exact isDigitCh_digitChar h10
    · rw [natDec_ge_ten h10]
      intro c hc
      rcases List.mem_append.mp hc with h | h
      · exact ih (n / 10) (Nat.div_lt_self (by omega) (by omega)) c h
      · rw [List.mem_singleton] at h
        subst h
        exact isDigitCh_digitChar (Nat.mod_lt _ (by omega))

theorem natDec_ne_nil {n : Nat} : natDec n ≠ [] := by
  by_cases h10 : n < 10
  · rw [natDec_lt_ten h10]; simp
  · rw [natDec_ge_ten h10]; simp

theorem natDec_parse {n : Nat} :
    (natDec n).foldl (fun a ch => a * 10 + digVal ch) 0 = n := by
  induction n using Nat.strong_induction_on with
  | _ n ih =>
    by_cases h10 : n < 10
    · rw [natDec_lt_ten h10]
      simp [digVal, digitChar_toNat h10]
    · rw [natDec_ge_ten h10, List.foldl_append]
      rw [ih (n / 10) (Nat.div_lt_self (by omega) (by omega))]
      simp [digVal, digitChar_toNat (Nat.mod_lt n (by omega) : n % 10 < 10)]
      omega

/-! ## Helper lemmas: character classes and token splitting -/

theorem isDigitCh_bounds {c : Char} (h : isDigitCh c = true) :
    48 ≤ c.toNat ∧ c.toNat ≤ 57 := by
  simpa [isDigitCh] using h

theorem digit_not_blank {c : Char} (h : isDigitCh c = true) : isBlank c = false := by
  have hb := isDigitCh_bounds h
  simp only [isBlank, Bool.or_eq_false_iff, beq_eq_false_iff_ne]
  refine ⟨⟨⟨⟨fun hc => ?_, fun hc => ?_⟩, fun hc => ?_⟩, fun hc => ?_⟩, fun hc => ?_⟩ <;>
    (subst hc; revert hb; decide)

theorem digit_beq_newline {c : Char} (h : isDigitCh c = true) : (c == '\n') = false := by
  have hb := isDigitCh_bounds h
  simp only [beq_eq_false_iff_ne]
  intro hc; subst hc; revert hb; decide

theorem digit_not_sign {c : Char} (h : isDigitCh c = true) :
    (c == '-' || c == '+') = false := by
  have hb := isDigitCh_bounds h
  simp only [Bool.or_eq_false_iff, beq_eq_false_iff_ne]
  refine ⟨fun hc => ?_, fun hc => ?_⟩ <;> (subst hc; revert hb; decide)

theorem tokChar_not_blank {c : Char} (h : tokChar c = true) : isBlank c = false := by
  simp only [tokChar, Bool.and_eq_true, Bool.not_eq_true'] at h
  exact h.1

theorem tokChar_beq_newline {c : Char} (h : tokChar c = true) : (c == '\n') = false := by
  simp only [tokChar, Bool.and_eq_true, Bool.not_eq_true'] at h
  exact h.2

theorem takeWhile_append_all {p : Char → Bool} (xs : List Char) (y : Char) (ys : List Char)
    (hx : ∀ x ∈ xs, p x = true) (hy : p y = false) :
    (xs ++ y :: ys).takeWhile p = xs := by
  induction xs with
  | nil => simp [List.takeWhile_cons, hy]
  | cons a as ih =>
    have hpa : p a = true := hx a (by simp)
    simp only [List.cons_append, List.takeWhile_cons, hpa, if_true]
    simp only [List.cons.injEq, true_and]
    exact ih (fun b hb => hx b (by simp [hb]))

theorem dropWhile_append_all {p : Char → Bool} (xs : List Char) (y : Char) (ys : List Char)
    (hx : ∀ x ∈ xs, p x = true) (hy : p y = false) :
    (xs ++ y :: ys).dropWhile p = y :: ys := by
  induction xs with
  | nil => simp [List.dropWhile_cons, hy]
  | cons a as ih =>
    have hpa : p a = true := hx a (by simp)
    simp only [List.cons_append, List.dropWhile_cons, hpa, if_true]
    exact ih (fun b hb => hx b (by simp [hb]))

/-! ## Helper lemmas: `scanfInt` on printed integers -/

theorem skipBlanks_nonblank {c : Char} (cs : List Char)
    (h1 : isBlank c = false) (h2 : (c == '\n') = false) :
    skipBlanks (c :: cs) = .ok (c :: cs) := by
  simp [skipBlanks, h1, h2]

theorem scanfInt_digits (ds : List Char) (hne : ds ≠ [])
    (hds : ∀ c ∈ ds, isDigitCh c = true) (rest : List Char) :
    scanfInt (ds ++ '\n' :: rest)
      = .ok (((ds.foldl (fun a ch => a * 10 + digVal ch) 0 : Nat) : Int), rest) := by
  obtain ⟨d, ds', rfl⟩ := List.exists_cons_of_ne_nil hne
  have hdd : isDigitCh d = true := hds d (by simp)
  have hdneg : (d == '-') = false := (Bool.or_eq_false_iff.mp (digit_not_sign hdd)).1
  have hdpos : (d == '+') = false := (Bool.or_eq_false_iff.mp (digit_not_sign hdd)).2
  have hsb : skipBlanks (d :: (ds' ++ '\n' :: rest)) = .ok (d :: (ds' ++ '\n' :: rest)) :=
    skipBlanks_nonblank _ (digit_not_blank hdd) (digit_beq_newline hdd)
  have htw : List.takeWhile isDigitCh (d :: (ds' ++ '\n' :: rest)) = d :: ds' := by
    rw [← List.cons_append]
    exact takeWhile_append_all _ _ _ hds (by decide)
  have hdw : List.dropWhile isDigitCh (d :: (ds' ++ '\n' :: rest)) = '\n' :: rest := by
    rw [← List.cons_append]
    exact dropWhile_append_all _ _ _ hds (by decide)
  rw [List.cons_append]
  simp only [scanfInt, hsb, hdneg, hdpos, Bool.or_self, Bool.false_eq_true, if_false]
  rw [htw, hdw]
  simp

theorem scanfInt_neg_digits (ds : List Char) (hne : ds ≠ [])
    (hds : ∀ c ∈ ds, isDigitCh c = true) (rest : List Char) :
    scanfInt ('-' :: ds ++ '\n' :: rest)
      = .ok (-((ds.foldl (fun a ch => a * 10 + digVal ch) 0 : Nat) : Int), rest) := by
  have hsb : skipBlanks ('-' :: (ds ++ '\n' :: rest)) = .ok ('-' :: (ds ++ '\n' :: rest)) :=
    skipBlanks_nonblank _ (by decide) (by decide)
  have htw : List.takeWhile isDigitCh (ds ++ '\n' :: rest) = ds :=
    takeWhile_append_all _ _ _ hds (by decide)
  have hdw : List.dropWhile isDigitCh (ds ++ '\n' :: rest) = '\n' :: rest :=
    dropWhile_append_all _ _ _ hds (by decide)
  have hm : ('-' == '-' : Bool) = true := by decide
  rw [List.cons_append]
  simp only [scanfInt, hsb, hm, Bool.true_or, if_true, htw, hdw]
  simp [hne]

theorem scanfInt_intDec (pid : Int) (rest : List Char) :
    scanfInt (intDec pid ++ '\n' :: rest) = .ok (pid, rest) := by
  rcases pid with n | m
  · have h : intDec (Int.ofNat n) = natDec n := by simp [intDec]
    rw [h, scanfInt_digits (natDec n) natDec_ne_nil natDec_digits rest, natDec_parse]
    norm_cast
  · have h : intDec (Int.negSucc m) = '-' :: natDec (m + 1) := by
      simp [intDec, Int.negSucc_lt_zero]
    rw [h, scanfInt_neg_digits (natDec (m + 1)) natDec_ne_nil natDec_digits rest, natDec_parse]
    congr 1

theorem asString_data (s : String) : s.data.asString = s := rfl

theorem scanlnStr_token (a : Char) (as : List Char) (rest : List Char)
    (h : ∀ c ∈ a :: as, tokChar c = true) :
    scanlnStr ((a :: as) ++ '\n' :: rest) = .ok ((a :: as).asString, rest) := by
  have hta : tokChar a = true := h a (by simp)
  have hsb : skipBlanks (a :: (as ++ '\n' :: rest)) = .ok (a :: (as ++ '\n' :: rest)) :=
    skipBlanks_nonblank _ (tokChar_not_blank hta) (tokChar_beq_newline hta)
  have htw : List.takeWhile tokChar (a :: (as ++ '\n' :: rest)) = a :: as := by
    rw [← List.cons_append]
    exact takeWhile_append_all _ _ _ h (by decide)
  have hdw : List.dropWhile tokChar (a :: (as ++ '\n' :: rest)) = '\n' :: rest := by
    rw [← List.cons_append]
    exact dropWhile_append_all _ _ _ h (by decide)
  rw [List.cons_append]
  simp only [scanlnStr, hsb, htw, hdw]
  simp [nlEnd]

theorem skipBlanks_error {cs : List Char} {e : RErr} (h : skipBlanks cs = .error e) :
    e = .newlineErr := by
  induction cs with
  | nil => simp [skipBlanks] at h
  | cons c cs ih =>
    by_cases hb : isBlank c = true
    · simp only [skipBlanks, hb, if_true] at h
      exact ih h
    · by_cases hn : (c == '\n') = true
      · simp only [skipBlanks, hb, hn, Bool.false_eq_true, if_false, if_true,
          Except.error.injEq] at h
        exact h.symm
      · simp only [skipBlanks, hb, hn, Bool.false_eq_true, if_false] at h
        exact absurd h (by simp)

theorem scanfInt_err (cs : List Char) (hint : startsWithInt cs = false) :
    ∃ e, scanfInt cs = .error e ∧ isNotExistErr e = false := by
  unfold startsWithInt at hint
  cases hsb : skipBlanks cs with
  | error e =>
    have he : e = .newlineErr := skipBlanks_error hsb
    subst he
    refine ⟨.newlineErr, ?_, by decide⟩
    simp only [scanfInt, hsb]
  | ok l =>
    rw [hsb] at hint
    cases l with
    | nil =>
      refine ⟨.eofErr, ?_, by decide⟩
      simp only [scanfInt, hsb]
    | cons c rest =>
      simp only at hint
      refine ⟨.intErr, ?_, by decide⟩
      simp only [scanfInt, hsb]
      cases hbody : (if c == '-' || c == '+' then rest else c :: rest) with
      | nil => simp [hbody]
      | cons d bs =>
        rw [hbody] at hint
        simp only at hint
        have htw : List.takeWhile isDigitCh (d :: bs) = [] := by
          simp [List.takeWhile_cons, hint]
        simp [hbody, htw]

/-! ## Claim theorems: PID Store (C2, C3, C5) -/

/-- C2 (counterexample): the round trip does not recover every
`(pid, addr)` pair: writing the empty rendezvous address gives the file
`"7\n\n"`, and reading it back fails with the scanner's
"unexpected newline" error instead of recovering `(7, "")`. -/
theorem claim_C2_counterexample :
    readPID (some (writePID 7 [""])) 1 = .error .newlineErr ∧
    (Except.error RErr.newlineErr : Except RErr (Int × List String))
      ≠ .ok (7, [""]) := by
  exact ⟨rfl, by simp⟩

/-- C2 (amended): for every integer `pid` and every nonempty
rendezvous-address string `addr` made of ASCII characters that are
neither blanks nor newlines (every `host:port` address is of this
form), `writePID` followed by `readPID` with one data pointer recovers
exactly the pair `(pid, addr)`. -/
theorem claim_C2 (pid : Int) (addr : String) (h1 : addr.data ≠ [])
    (h2 : ∀ c ∈ addr.data, tokChar c = true)
    (h3 : ∀ c ∈ addr.data, c.toNat < 128) :
    readPID (some (writePID pid [addr])) 1 = .ok (pid, [addr]) := by
  have hw : writePID pid [addr] = intDec pid ++ '\n' :: (addr.data ++ '\n' :: []) := by
    simp [writePID]
  obtain ⟨a, as, hd⟩ := List.exists_cons_of_ne_nil h1
  have hln : scanlnStr (addr.data ++ '\n' :: []) = .ok (addr, []) := by
    rw [hd, scanlnStr_token a as [] (hd ▸ h2)]
    rw [← hd, asString_data]
  rw [hw]
  simp only [readPID, scanfInt_intDec pid (addr.data ++ '\n' :: []), scanlnLoop, hln]

/-- C2 (witness). -/
theorem claim_C2_witness :
    ("127.0.0.1:80".data ≠ [] ∧ (∀ c ∈ "127.0.0.1:80".data, tokChar c = true) ∧
      (∀ c ∈ "127.0.0.1:80".data, c.toNat < 128)) ∧
    readPID (some (writePID (-42) ["127.0.0.1:80"])) 1 = .ok (-42, ["127.0.0.1:80"]) :=
  ⟨⟨by decide, by decide, by decide⟩,
    claim_C2 (-42) "127.0.0.1:80" (by decide) (by decide) (by decide)⟩

/-- C3 (counterexample): the file `"12a"` has a first line that is not
a base-10 integer, yet `readPID` succeeds with PID 12 and a nil error:
the `%d` verb stops at the first non-digit instead of validating the
whole line. -/
theorem claim_C3_counterexample :
    specFirstLineIsBase10Int ("12a".data) = false ∧
    readPID (some ("12a".data)) 0 = .ok (12, []) :=
  ⟨by decide, rfl⟩

/-- C3 (amended): for every file whose content does not begin — after
optional blanks and an optional sign — with a decimal digit, `readPID`
returns a non-nil error that does not satisfy the not-found predicate
(a malformed-record error); and on an absent file `readPID` returns the
not-found error satisfying `os.IsNotExist`.  In both cases no PID is
recovered. -/
theorem claim_C3 (cs : List Char) (n : Nat) (hint : startsWithInt cs = false)
    (hA : ∀ c ∈ cs, c.toNat < 128) :
    (∃ e, readPID (some cs) n = .error e ∧ isNotExistErr e = false) ∧
    readPID none n = .error .notExist ∧ isNotExistErr .notExist = true := by
  obtain ⟨e, he, hne⟩ := scanfInt_err cs hint
  refine ⟨⟨e, ?_, hne⟩, rfl, rfl⟩
  simp only [readPID, he]

/-- C3 (witness). -/
theorem claim_C3_witness :
    (startsWithInt ("test".data) = false ∧ (∀ c ∈ "test".data, c.toNat < 128)) ∧
    ((∃ e, readPID (some ("test".data)) 0 = .error e ∧ isNotExistErr e = false) ∧
      readPID none 0 = .error .notExist ∧ isNotExistErr .notExist = true) :=
  ⟨⟨by decide, by decide⟩, claim_C3 ("test".data) 0 (by decide) (by decide)⟩

/-- C5 (counterexample): a PID file holding only a valid decimal first
line and no rendezvous-address line is an error for `readPID` with one
data pointer: reading `writePID 12345 []` (the bytes `"12345\n"`)
yields an EOF error, not a "no rendezvous available" success. -/
theorem claim_C5_counterexample :
    readPID (some (writePID 12345 [])) 1 = .error .eofErr := rfl

/-- C5 (amended): for every PID, a record holding only the PID line is
read through an address pointer as an EOF error, and the socket-variant
`isRunning` propagates it: it returns `(false, err)` with a non-nil,
non-not-found error — the code does not implement the "missing second
line is not an error" behaviour the spec describes. -/
theorem claim_C5 (pid : Int) (net : NetEnv) :
    readPID (some (writePID pid [])) 1 = .error .eofErr ∧
    isRunningS (some (writePID pid [])) net = (false, some (.readErr .eofErr)) := by
  have hw : writePID pid [] = intDec pid ++ '\n' :: [] := by simp [writePID]
  have h1 : readPID (some (writePID pid [])) 1 = .error .eofErr := by
    rw [hw]
    simp only [readPID, scanfInt_intDec pid []]
    rfl
  refine ⟨h1, ?_⟩
  simp only [isRunningS, h1]

/-! ## Claim theorems: stage dispatch (C1) and facade (C4, C9, C10) -/

/-- C1: for every value of the stage environment variable other than
the recognised stage names (the empty string, plus `DETACH` only on the
signal-based platform, plus `RUN`), `summon` returns the `invalid
stage` configuration error together with the `Unknown` sentinel stage,
and no stage handler is executed — in both platform variants. -/
theorem claim_C1 (s t : String)
    (hs : s ∉ (["", "DETACH", "RUN"] : List String))
    (ht : t ∉ (["", "RUN"] : List String)) :
    summonP s = (.sUnknown, none, some .invalidStage) ∧
    summonS t = (.sUnknown, none, some .invalidStage) := by
  simp only [List.mem_cons, List.not_mem_nil, or_false, not_or] at hs ht
  obtain ⟨hs1, hs2, hs3⟩ := hs
  obtain ⟨ht1, ht2⟩ := ht
  constructor
  · simp [summonP, stageString, hs1, hs2, hs3]
  · simp [summonS, stageString, ht1, ht2]

/-- C1 (witness): `BOGUS` is invalid on the signal platform and the
Detach stage name itself is invalid on the socket platform. -/
theorem claim_C1_witness :
    ("BOGUS" ∉ (["", "DETACH", "RUN"] : List String) ∧
      "DETACH" ∉ (["", "RUN"] : List String)) ∧
    summonP "BOGUS" = (.sUnknown, none, some .invalidStage) ∧
    summonS "DETACH" = (.sUnknown, none, some .invalidStage) :=
  ⟨⟨by decide, by decide⟩, claim_C1 "BOGUS" "DETACH" (by decide) (by decide)⟩

/-- C4: for every identity whose PID file is absent, `IsRunning`
returns `(false, nil)` and `Terminate` returns the typed `ErrNotRunning`
error — in both the socket variant (`isRunning`/`terminate` on the
path) and the signal variant (`Process.IsRunning`/`Process.Terminate`),
and independently of the network or signal outcome. -/
theorem claim_C4 (net : NetEnv) (alive : Bool) (sigErr : Option GErr) :
    isRunningS none net = (false, none) ∧
    terminateS none net = some .notRunning ∧
    IsRunningP none alive = (false, none) ∧
    TerminateP none sigErr = (none, some .notRunning) := by
  exact ⟨rfl, rfl, rfl, rfl⟩

/-- C9 (counterexample): `New()` as compiled with the signal-based
platform file has a 2-second default start timeout, not 60 seconds. -/
theorem claim_C9_counterexample :
    (NewSig "foo.exe" []).startTimeout = 2 * durSecond ∧
    (NewSig "foo.exe" []).startTimeout ≠ 60 * durSecond := by
  exact ⟨rfl, by decide⟩

/-- C9 (amended): `New()` with no options yields a start timeout of 60
seconds in the socket revision and of 2 seconds in the signal-based
revision; in both, the PID file defaults to the executable's base name
with its extension replaced by `.pid` (so `foo.exe` yields `foo.pid`). -/
theorem claim_C9 (exe : String) :
    (NewSock exe []).startTimeout = 60 * durSecond ∧
    (NewSig exe []).startTimeout = 2 * durSecond ∧
    (NewSock exe []).pidFile = pidFromExe exe ∧
    (NewSig exe []).pidFile = pidFromExe exe ∧
    pidFromExe "foo.exe" = "foo.pid" := by
  refine ⟨?_, ?_, ?_, ?_, by decide⟩ <;> rfl

/-- C10: in the signal-based variant, every `Process.Terminate` call
that reads a nonzero PID from the PID file removes the PID file before
returning — the deferred `p.Close()` runs even when delivering SIGTERM
fails, so the state is mutated on the error path as well. -/
theorem claim_C10 (cs : List Char) (pid : Int) (rest : List Char) (sigErr : Option GErr)
    (hread : scanfInt cs = .ok (pid, rest)) (hpid : pid ≠ 0) :
    TerminateP (some cs) sigErr = (none, sigErr) := by
  have h0 : readPID0 (some cs) = .ok pid := by
    simp only [readPID0, readPID, hread, scanlnLoop]
  simp only [TerminateP, h0]
  simp [hpid]

/-- C10 (witness): the PID file `"123\n"` is removed even though the
signal delivery fails with a dial-class error. -/
theorem claim_C10_witness :
    (scanfInt ("123\n".data) = .ok (123, []) ∧ (123 : Int) ≠ 0) ∧
    TerminateP (some ("123\n".data)) (some .dialErr) = (none, some .dialErr) :=
  ⟨⟨rfl, by decide⟩, claim_C10 ("123\n".data) 123 [] (some .dialErr) rfl (by decide)⟩

/-! ## Claim theorems: exit hooks and termination handshake (C6, C7) -/

theorem atExit_foldl (fs : List Nat) (p : ProcModel) :
    (fs.foldl ProcAtExit p).atExit = p.atExit ++ fs := by
  induction fs generalizing p with
  | nil => simp
  | cons f fs ih => simp [ProcAtExit, ih]

theorem filterMap_hookOf (fs : List Nat) (t : List REvent) :
    List.filterMap hookOf (fs.map REvent.hook ++ t) = fs ++ List.filterMap hookOf t := by
  induction fs with
  | nil => simp
  | cons f fs ih => simp [hookOf, ih]

theorem takeWhile_shutdown (fs : List Nat) :
    List.takeWhile (fun e => !(e == REvent.pidRemove)) (shutdownSeq fs)
      = fs.map REvent.hook ++ [REvent.lnClose] := by
  induction fs with
  | nil => rfl
  | cons f fs ih =>
    have hne : ((REvent.hook f == REvent.pidRemove) : Bool) = false := by
      simp
    simp only [shutdownSeq, List.map_cons, List.cons_append, List.takeWhile_cons, hne,
      Bool.not_false, if_true]
    simp only [shutdownSeq] at ih
    rw [ih]

/-- C6: the exit hooks registered with `AtExit` before start are, when
the running instance's shutdown is triggered by an acknowledged
terminate (`"ex"`) request, invoked in registration order and exactly
once each (the hook events of the trace are exactly the registration
list), and all of them complete before the PID file is removed (the
prefix of the trace before the removal event already contains every
hook invocation). -/
theorem claim_C6 (fs : List Nat) :
    (handleConn "ex" ((fs.foldl ProcAtExit emptyProc).atExit)).1 = some "ok" ∧
    ((handleConn "ex" ((fs.foldl ProcAtExit emptyProc).atExit)).2).filterMap hookOf = fs ∧
    (((handleConn "ex" ((fs.foldl ProcAtExit emptyProc).atExit)).2).takeWhile
        (fun e => !(e == REvent.pidRemove))).filterMap hookOf = fs ∧
    REvent.pidRemove ∈ (handleConn "ex" ((fs.foldl ProcAtExit emptyProc).atExit)).2 := by
  have hreg : (fs.foldl ProcAtExit emptyProc).atExit = fs := by
    rw [atExit_foldl]
    rfl
  have hex : handleConn "ex" fs = (some "ok", REvent.ack :: shutdownSeq fs) := rfl
  rw [hreg, hex]
  have hackne : ((REvent.ack == REvent.pidRemove) : Bool) = false := by decide
  refine ⟨rfl, ?_, ?_, ?_⟩
  · show List.filterMap hookOf (REvent.ack :: shutdownSeq fs) = fs
    simp only [List.filterMap_cons, hookOf, shutdownSeq, filterMap_hookOf]
    simp [hookOf]
  · show List.filterMap hookOf
        (List.takeWhile (fun e => !(e == REvent.pidRemove)) (REvent.ack :: shutdownSeq fs)) = fs
    rw [List.takeWhile_cons, hackne]
    simp only [Bool.not_false, if_true, takeWhile_shutdown]
    simp only [List.filterMap_cons, hookOf, filterMap_hookOf]
    simp [hookOf]
  · simp [shutdownSeq]

/-- C7: `terminate` (the socket-variant `requestAction(terminate)`)
returns success only when the running instance's `"ok"` acknowledgement
was received; and in the remote handler's own event order the
acknowledgement is the very first event, with exit-hook execution and
process exit strictly after it — so at the moment the call returns only
acknowledgement and the start of hook execution are guaranteed, not
completed shutdown. -/
theorem claim_C7 (file : Option (List Char)) (net : NetEnv) (hs : List Nat)
    (h : terminateS file net = none) :
    net.readResp = some "ok" ∧
    (handleConn "ex" hs).2.head? = some REvent.ack ∧
    REvent.procExit ∈ (handleConn "ex" hs).2.drop 1 := by
  have hex : handleConn "ex" hs = (some "ok", REvent.ack :: shutdownSeq hs) := rfl
  refine ⟨?_, by rw [hex]; rfl, by rw [hex]; simp [shutdownSeq]⟩
  unfold terminateS at h
  cases hr : readPID file 1 with
  | error e =>
    rw [hr] at h
    cases e <;> simp_all
  | ok pr =>
    rw [hr] at h
    obtain ⟨pid, datas⟩ := pr
    simp only at h
    split_ifs at h
    cases hn : net.readResp with
    | none => rw [hn] at h; simp at h
    | some r =>
      rw [hn] at h
      by_cases hok : r = "ok"
      · rw [hok]
      · simp [hok] at h

/-- C7 (witness): a well-formed PID record and a remote that replies
`"ok"` make `terminate` succeed. -/
theorem claim_C7_witness :
    terminateS (some ("5\na\n".data)) ⟨true, true, some "ok"⟩ = none ∧
    ((⟨true, true, some "ok"⟩ : NetEnv).readResp = some "ok" ∧
      (handleConn "ex" [0]).2.head? = some REvent.ack ∧
      REvent.procExit ∈ (handleConn "ex" [0]).2.drop 1) :=
  ⟨rfl, claim_C7 (some ("5\na\n".data)) ⟨true, true, some "ok"⟩ [0] rfl⟩

/-! ## Claim theorems: identity (C8) -/

theorem hexEncode_length (bs : List Nat) : (hexEncode bs).length = 2 * bs.length := by
  induction bs with
  | nil => rfl
  | cons b bs ih =>
    simp only [hexEncode, List.map_cons, List.flatten_cons, List.length_append,
      List.length_cons, List.length_nil] at ih ⊢
    omega

theorem digestBytes_length (st : HS) : (digestBytes st).length = 28 := rfl

theorem sha224_length (msg : List Nat) : (sha224 msg).length = 28 := digestBytes_length _

theorem hexDigitU_mem {n : Nat} (h : n < 16) : hexDigitU n ∈ "0123456789ABCDEF".data := by
  interval_cases n <;> decide

theorem be32_mem {b w : Nat} (h : b ∈ be32 w) : b < 256 := by
  simp only [be32, List.mem_cons, List.not_mem_nil, or_false] at h
  rcases h with rfl | rfl | rfl | rfl <;> omega

theorem digestBytes_mem {b : Nat} {st : HS} (h : b ∈ digestBytes st) : b < 256 := by
  simp only [digestBytes] at h
  obtain ⟨l, hl, hb⟩ := List.mem_flatten.mp h
  obtain ⟨w, _, rfl⟩ := List.mem_map.mp hl
  exact be32_mem hb

theorem hexEncode_mem {c : Char} {bs : List Nat} (hbs : ∀ b ∈ bs, b < 256)
    (h : c ∈ hexEncode bs) : c ∈ "0123456789ABCDEF".data := by
  simp only [hexEncode] at h
  obtain ⟨l, hl, hc⟩ := List.mem_flatten.mp h
  obtain ⟨b, hb, rfl⟩ := List.mem_map.mp hl
  have hblt := hbs b hb
  simp only [List.mem_cons, List.not_mem_nil, or_false] at hc
  rcases hc with rfl | rfl
  · exact hexDigitU_mem (by omega)
  · exact hexDigitU_mem (Nat.mod_lt _ (by omega))

/-- C8: for every PID-file path, the identity `newEnvVar p` is
deterministic (equal paths yield equal identities) and is a
fixed-length (7-character) upper-case hexadecimal string — the prefix
of the hex-encoded SHA-224 digest of the path. -/
theorem claim_C8 (p q : String) (hpq : p = q) :
    newEnvVar p = newEnvVar q ∧
    (newEnvVar p).length = 7 ∧
    ∀ c ∈ (newEnvVar p).data, c ∈ "0123456789ABCDEF".data := by
  subst hpq
  refine ⟨rfl, ?_, ?_⟩
  · show ((hashHex p).data.take 7).length = 7
    have h56 : (hashHex p).data.length = 56 := by
      show (hexEncode (sha224 (strBytes p))).length = 56
      rw [hexEncode_length, sha224_length]
    rw [List.length_take]
    omega
  · intro c hc
    have hc' : c ∈ (hashHex p).data := List.take_subset 7 _ hc
    exact hexEncode_mem (fun b hb => digestBytes_mem hb) hc'

/-- C8 (witness). -/
theorem claim_C8_witness :
    newEnvVar "test.pid" = newEnvVar "test.pid" ∧
    (newEnvVar "test.pid").length = 7 ∧
    ∀ c ∈ (newEnvVar "test.pid").data, c ∈ "0123456789ABCDEF".data :=
  claim_C8 "test.pid" "test.pid" rfl

/-- Sanity: the identity of the repository's own test path. -/
theorem newEnvVar_test : newEnvVar "test.pid" = "EF61F1A" := by decide
